import Mathlib

/-!
Shallow embedding of the file-ingestion pipeline and in-memory catalog of
the cloud-pbl repository.

Sources embedded:
* the upload page component: `getFileType`, the per-file validation filter
  inside `handleFiles`, the `simulateUpload` interval body (one firing of
  which is `tick` below), and `removeFile` (cancellation of a staging
  entry);
* the `FileProvider` context (src/unnamed/part_001): the catalog `files`
  list with `addFile`, `removeFile`, `getFile`;
* the files page: `filteredFiles` (search text + category filter) and
  `deleteFile`.

Modelling conventions:
* JS numbers carrying progress values are modelled as `ℚ`; the random
  increment `Math.random() * 15` of a tick becomes an explicit parameter
  `inc` of the tick.
* `Math.random().toString(36).substr(2, 9)` id generation becomes an
  explicit generator `idGen : ℕ → String` supplying the successive draws.
* JS string operations are modelled on character lists so that they are
  executable by the kernel: `String.prototype.startsWith` becomes
  `List.isPrefixOf` on `String.toList`, `String.prototype.includes`
  becomes list-infix, `toLowerCase` becomes `Char.toLower` mapped over the
  characters (identical on ASCII, the only characters the code compares).
* `URL.createObjectURL` is modelled as a handle derived from the file;
  `URL.revokeObjectURL` appends the handle to a `released` log.
* Each `setInterval` registered by `simulateUpload` is modelled by the
  entry's id being present in a `timers` list; `clearInterval` erases the
  id; a tick for an id can fire only while that id is in `timers`.
* Toast notifications, the `uploadDate` timestamp and the optional
  `thumbnail` field are presentation-layer details not used by any claim
  and are not modelled.
-/

namespace CloudPbl

/-- The fields of a browser `File` that the code reads: `name`, `type`
(the declared MIME type) and `size` (a non-negative integer of bytes). -/
structure MFile where
  name : String
  ftype : String
  size : Nat
  deriving DecidableEq, Repr

/-- The category union `'video' | 'audio' | 'pdf'` used by `CloudFile.type`
and by the return type of `getFileType`. -/
inductive FileCategory
  | video
  | audio
  | pdf
  deriving DecidableEq, Repr

/-- Model of `String.prototype.startsWith`, executable on character
lists. -/
def strStartsWith (s p : String) : Bool :=
  List.isPrefixOf p.toList s.toList

/-- `getFileType` of the upload page: declared type starting with `video/`
maps to video, starting with `audio/` maps to audio, exactly
`application/pdf` maps to pdf, anything else to null (`none`). -/
def getFileType (f : MFile) : Option FileCategory :=
  if strStartsWith f.ftype "video/" then some .video
  else if strStartsWith f.ftype "audio/" then some .audio
  else if f.ftype = "application/pdf" then some .pdf
  else none

/-- The two rejection reasons surfaced by the validation in
`handleFiles`. -/
inductive RejectReason
  | UnsupportedType
  | TooLarge
  deriving DecidableEq, Repr

/-- Outcome of validating one candidate file. -/
inductive Outcome
  | accepted (c : FileCategory)
  | rejected (r : RejectReason)
  deriving DecidableEq, Repr

/-- The 50 MB limit `50 * 1024 * 1024` hard-coded in `handleFiles`. -/
def sizeLimit : Nat := 50 * 1024 * 1024

/-- The per-file validation inside `handleFiles`' filter: first the type
check (`if (!type)` rejects as unsupported), then the size check
(`if (file.size > 50 * 1024 * 1024)` rejects as too large); a file passing
both is accepted with the category `getFileType` assigned. -/
def classify (f : MFile) : Outcome :=
  match getFileType f with
  | none => .rejected .UnsupportedType
  | some t => if sizeLimit < f.size then .rejected .TooLarge else .accepted t

/-- Whether `classify` accepts, i.e. the boolean the `validFiles` filter of
`handleFiles` computes for one file. -/
def isAccepted (f : MFile) : Bool :=
  match classify f with
  | .accepted _ => true
  | .rejected _ => false

/-- The status union `'uploading' | 'completed' | 'error'` of
`UploadingFile.status`. -/
inductive UploadStatus
  | uploading
  | completed
  | error
  deriving DecidableEq, Repr

/-- An `UploadingFile` staging entry of the upload page. -/
structure UploadingFile where
  file : MFile
  progress : ℚ
  status : UploadStatus
  id : String
  deriving DecidableEq, Repr

/-- A `CloudFile` catalog entry (`uploadDate` and `thumbnail` omitted, see
module notes). -/
structure CloudFile where
  id : String
  name : String
  ctype : FileCategory
  size : Nat
  url : String
  deriving DecidableEq, Repr

/-- Model of `URL.createObjectURL(file)`: the durable content reference
materialized on completion. -/
def objectURL (f : MFile) : String :=
  "blob:" ++ f.name

/-- The `CloudFile` constructed in `simulateUpload`'s completion branch
from the staging entry and its detected type. -/
def mkCloudFile (uf : UploadingFile) (t : FileCategory) : CloudFile :=
  { id := uf.id
    name := uf.file.name
    ctype := t
    size := uf.file.size
    url := objectURL uf.file }

/-- Combined state of the upload page (staging list and timers), the
`FileProvider` catalog, and the log of released object URLs. -/
structure AppState where
  uploadingFiles : List UploadingFile
  files : List CloudFile
  timers : List String
  released : List String
  deriving DecidableEq, Repr

/-- The empty initial state: no staging entries, empty catalog, no
timers. -/
def initState : AppState :=
  { uploadingFiles := [], files := [], timers := [], released := [] }

/-- One staging entry's treatment by one firing of the interval body in
`simulateUpload`: if the entry matches the interval's id, its progress
becomes `Math.min(progress + inc, 100)`; when that clamped value reaches
100 the interval is cleared (third component `true`), and — when the file
type is recognized — a `CloudFile` with a materialized object URL is
produced for the catalog (second component); entries with another id are
returned unchanged. -/
def tickStep (inc : ℚ) (id : String) (uf : UploadingFile) :
    UploadingFile × Option CloudFile × Bool :=
  if uf.id = id then
    if 100 ≤ min (uf.progress + inc) 100 then
      match getFileType uf.file with
      | some t =>
          ({ uf with progress := 100, status := .completed },
            some (mkCloudFile uf t), true)
      | none =>
          ({ uf with progress := 100, status := .completed }, none, true)
    else ({ uf with progress := min (uf.progress + inc) 100 }, none, false)
  else (uf, none, false)

/-- One firing of the interval registered by `simulateUpload` for `id`,
with the random increment `inc = Math.random() * 15`.  The interval fires
only while it is registered (`id ∈ timers`).  Its body maps `tickStep`
over `uploadingFiles`; every produced `CloudFile` is `addFile`d to the
catalog, and if any step cleared the interval the id leaves `timers`. -/
def tick (inc : ℚ) (id : String) (s : AppState) : AppState :=
  if id ∈ s.timers then
    { uploadingFiles := s.uploadingFiles.map (fun uf => (tickStep inc id uf).1)
      files := s.files ++ s.uploadingFiles.filterMap (fun uf => (tickStep inc id uf).2.1)
      timers :=
        if s.uploadingFiles.any (fun uf => (tickStep inc id uf).2.2) then
          s.timers.erase id
        else s.timers
      released := s.released }
  else s

/-- The `newUploadingFiles` construction of `handleFiles`: each valid file
becomes a staging entry with `progress = 0`, status uploading, and the
next id drawn from the generator. -/
def assignIds (idGen : ℕ → String) : ℕ → List MFile → List UploadingFile
  | _, [] => []
  | k, f :: fs => ⟨f, 0, .uploading, idGen k⟩ :: assignIds idGen (k + 1) fs

/-- `simulateUpload` registers a fresh `setInterval` for the entry (the
interval body itself is `tick`). -/
def simulateUpload (timers : List String) (uf : UploadingFile) : List String :=
  timers ++ [uf.id]

/-- `handleFiles`: validates the candidate batch, creates one staging
entry per accepted candidate (appended to the staging list), and starts
the upload simulation (registers one interval) for each new entry.
Rejected candidates never enter staging; their toast notifications are
presentation-layer and not modelled. -/
def handleFiles (idGen : ℕ → String) (candidates : List MFile) (s : AppState) :
    AppState :=
  let validFiles := candidates.filter isAccepted
  let newUploadingFiles := assignIds idGen 0 validFiles
  { s with
    uploadingFiles := s.uploadingFiles ++ newUploadingFiles
    timers := newUploadingFiles.foldl simulateUpload s.timers }

namespace UploadPage

/-- `removeFile` of the upload page (the X button): cancellation of a
staging entry.  It only filters the entry out of `uploadingFiles`; note
that it does not touch `timers` — the source has no `clearInterval`
here. -/
def removeFile (id : String) (s : AppState) : AppState :=
  { s with uploadingFiles := s.uploadingFiles.filter (fun uf => !(uf.id == id)) }

end UploadPage

namespace FileContext

/-- `addFile` of the `FileProvider`: appends the entry to the catalog
list. -/
def addFile (file : CloudFile) (files : List CloudFile) : List CloudFile :=
  files ++ [file]

/-- `removeFile` of the `FileProvider`: keeps every entry whose id differs
from the argument. -/
def removeFile (id : String) (files : List CloudFile) : List CloudFile :=
  files.filter (fun file => !(file.id == id))

/-- `getFile` of the `FileProvider`: first entry with the given id, if
any. -/
def getFile (id : String) (files : List CloudFile) : Option CloudFile :=
  files.find? (fun file => file.id == id)

end FileContext

namespace FilesPage

/-- `deleteFile` of the files page: removes the entry from the catalog and
revokes (releases) its object URL. -/
def deleteFile (file : CloudFile) (s : AppState) : AppState :=
  { s with
    files := FileContext.removeFile file.id s.files
    released := s.released ++ [file.url] }

end FilesPage

/-- The filter-chip union `'all' | 'video' | 'audio' | 'pdf'` of the files
page. -/
inductive FilterType
  | all
  | video
  | audio
  | pdf
  deriving DecidableEq, Repr

/-- The chip corresponding to a category (used to model the untyped JS
comparison `file.type === filterType`). -/
def FileCategory.toFilter : FileCategory → FilterType
  | .video => .video
  | .audio => .audio
  | .pdf => .pdf

/-- Model of `String.prototype.includes` on character lists: the pattern
occurs as a contiguous substring. -/
def jsIncludes (s pat : List Char) : Bool :=
  decide (pat <:+: s)

/-- Lower-casing used by the search comparison, on character lists. -/
def jsToLower (s : String) : List Char :=
  s.toList.map Char.toLower

/-- The `matchesSearch` conjunct of `filteredFiles`:
`file.name.toLowerCase().includes(searchTerm.toLowerCase())`. -/
def matchesSearch (searchTerm : String) (f : CloudFile) : Bool :=
  jsIncludes (jsToLower f.name) (jsToLower searchTerm)

/-- The `matchesFilter` conjunct of `filteredFiles`:
`filterType === 'all' || file.type === filterType`. -/
def matchesFilter (ft : FilterType) (f : CloudFile) : Bool :=
  ft == .all || f.ctype.toFilter == ft

/-- `filteredFiles` of the files page: entries matching both the search
text and the category chip. -/
def filteredFiles (searchTerm : String) (ft : FilterType)
    (files : List CloudFile) : List CloudFile :=
  files.filter (fun f => matchesSearch searchTerm f && matchesFilter ft f)

/-! Concrete fixtures used by witnesses and counterexamples. -/

/-- A small valid video candidate. -/
def vid : MFile := ⟨"clip.mp4", "video/mp4", 1024⟩

/-- A small valid audio candidate. -/
def aud : MFile := ⟨"song.mp3", "audio/mpeg", 2048⟩

example : classify vid = .accepted .video := by decide
example : classify aud = .accepted .audio := by decide
example : classify ⟨"a.pdf", "application/pdf", 0⟩ = .accepted .pdf := by decide
example : classify ⟨"a.zip", "application/zip", 1024⟩ = .rejected .UnsupportedType := by
  decide
example : classify ⟨"a.mp3", "audio/mpeg", 60 * 1024 * 1024⟩ = .rejected .TooLarge := by
  decide
example : classify ⟨"a.mp3", "audio/mpeg", 50 * 1024 * 1024⟩ = .accepted .audio := by
  decide

/-- A catalog entry with id `"dup"`. -/
def cfA : CloudFile := ⟨"dup", "Report.pdf", .pdf, 100, "blob:Report.pdf"⟩

/-- A second, different catalog entry with the same id `"dup"`. -/
def cfB : CloudFile := ⟨"dup", "Slides.pdf", .pdf, 200, "blob:Slides.pdf"⟩

/-- An oversized candidate of an unsupported type. -/
def bigzip : MFile := ⟨"big.zip", "application/zip", 50 * 1024 * 1024 + 1⟩

/-! Helper lemmas. -/

/-- A lookup after a removal of the same id finds nothing. -/
theorem getFile_removeFile (id : String) (files : List CloudFile) :
    FileContext.getFile id (FileContext.removeFile id files) = none := by
  rw [FileContext.getFile, List.find?_eq_none]
  intro f hf
  have h := (List.mem_filter.mp hf).2
  simpa using h

/-- The empty search text matches every file. -/
theorem matchesSearch_empty (f : CloudFile) : matchesSearch "" f = true := by
  have h : jsToLower "" = [] := rfl
  rw [matchesSearch, h, jsIncludes]
  exact decide_eq_true ⟨[], jsToLower f.name, by simp⟩

/-- The `all` chip matches every file. -/
theorem matchesFilter_all (f : CloudFile) : matchesFilter .all f = true := rfl

/-- Unfolding of `classify` when the type is unrecognized. -/
theorem classify_eq_of_none {f : MFile} (hft : getFileType f = none) :
    classify f = .rejected .UnsupportedType := by
  unfold classify
  rw [hft]

/-- Unfolding of `classify` when the type is recognized. -/
theorem classify_eq_of_some {f : MFile} {t : FileCategory}
    (hft : getFileType f = some t) :
    classify f
      = if sizeLimit < f.size then .rejected .TooLarge else .accepted t := by
  unfold classify
  rw [hft]

/-- Unfolding of the `getFileType` else-branch. -/
theorem getFileType_eq_none_iff (f : MFile) :
    getFileType f = none
      ↔ strStartsWith f.ftype "video/" = false
        ∧ strStartsWith f.ftype "audio/" = false
        ∧ ¬ f.ftype = "application/pdf" := by
  unfold getFileType
  split_ifs with h1 h2 h3
  · simp [h1]
  · simp [h1, h2]
  · simp [h3]
  · simp [h1, h2, h3]

/-- Unfolding of the `getFileType` video branch. -/
theorem getFileType_video (f : MFile) :
    getFileType f = some .video ↔ strStartsWith f.ftype "video/" = true := by
  unfold getFileType
  split_ifs with h1 h2 h3
  · simp [h1]
  · simp [h1]
  · simp [h1]
  · simp [h1]

/-- Unfolding of the `getFileType` audio branch. -/
theorem getFileType_audio (f : MFile) :
    getFileType f = some .audio
      ↔ strStartsWith f.ftype "video/" = false
        ∧ strStartsWith f.ftype "audio/" = true := by
  unfold getFileType
  split_ifs with h1 h2 h3
  · simp [h1]
  · simp [h1, h2]
  · simp [h1, h2]
  · simp [h1, h2]

/-- Unfolding of the `getFileType` pdf branch. -/
theorem getFileType_pdf (f : MFile) :
    getFileType f = some .pdf
      ↔ strStartsWith f.ftype "video/" = false
        ∧ strStartsWith f.ftype "audio/" = false
        ∧ f.ftype = "application/pdf" := by
  unfold getFileType
  split_ifs with h1 h2 h3
  · simp [h1]
  · simp [h1, h2]
  · rw [Bool.not_eq_true] at h1 h2
    exact iff_of_true rfl ⟨h1, h2, h3⟩
  · simp [h1, h2, h3]

/-- Acceptance characterization of `classify`: the recognized category,
with the size within the limit. -/
theorem classify_accepted_iff (f : MFile) (t : FileCategory) :
    classify f = .accepted t ↔ getFileType f = some t ∧ f.size ≤ sizeLimit := by
  cases hft : getFileType f with
  | none => simp [classify_eq_of_none hft, hft]
  | some u =>
      rw [classify_eq_of_some hft]
      by_cases hs : sizeLimit < f.size
      · rw [if_pos hs]
        constructor
        · intro h
          exact absurd h (by simp)
        · rintro ⟨_, h2⟩
          omega
      · rw [if_neg hs]
        have hsz : f.size ≤ sizeLimit := by omega
        simp [hsz, hft]

/-- Rejection with `UnsupportedType` happens exactly when `getFileType`
recognizes nothing. -/
theorem classify_unsupported_iff (f : MFile) :
    classify f = .rejected .UnsupportedType ↔ getFileType f = none := by
  cases hft : getFileType f with
  | none => simp [classify_eq_of_none hft, hft]
  | some u =>
      rw [classify_eq_of_some hft]
      by_cases hs : sizeLimit < f.size
      · rw [if_pos hs]
        simp [hft]
      · rw [if_neg hs]
        simp [hft]

/-! Claim theorems. -/

/-- C3 counterexample: `addFile` performs no duplicate-id check; adding an
entry whose id `"dup"` is already present succeeds silently and the
catalog ends up with two entries carrying that id, instead of failing with
a `DuplicateId` error. -/
theorem C3_counterexample :
    cfB.id = "dup"
    ∧ (∃ f ∈ [cfA], f.id = "dup")
    ∧ FileContext.addFile cfB [cfA] = [cfA, cfB]
    ∧ ((FileContext.addFile cfB [cfA]).filter (fun f => f.id == "dup")).length = 2 := by
  decide

/-- C3 amended: `addFile` inserts unconditionally — when `entry.id` is
already present, the catalog gains one more entry with that id (at least
two in total) and no error of any kind is signalled (the function's type
has no error channel). -/
theorem C3_duplicate_id_inserted (files : List CloudFile) (cf : CloudFile)
    (h : ∃ f ∈ files, f.id = cf.id) :
    (FileContext.addFile cf files).countP (fun f => f.id == cf.id)
      = files.countP (fun f => f.id == cf.id) + 1
    ∧ 2 ≤ (FileContext.addFile cf files).countP (fun f => f.id == cf.id) := by
  have h1 : (FileContext.addFile cf files).countP (fun f => f.id == cf.id)
      = files.countP (fun f => f.id == cf.id) + 1 := by
    simp [FileContext.addFile, List.countP_cons]
  refine ⟨h1, ?_⟩
  have h2 : 0 < files.countP (fun f => f.id == cf.id) := by
    rw [List.countP_pos_iff]
    obtain ⟨f, hf, hid⟩ := h
    exact ⟨f, hf, by simpa using hid⟩
  omega

/-- C3 witness: the amended statement at the concrete duplicate pair. -/
theorem C3_witness :
    (∃ f ∈ [cfA], f.id = cfB.id)
    ∧ 2 ≤ (FileContext.addFile cfB [cfA]).countP (fun f => f.id == cfB.id) :=
  ⟨by decide, (C3_duplicate_id_inserted [cfA] cfB (by decide)).2⟩

/-- C4: removal is idempotent; a removed id is no longer found; removing
an absent id is a no-op; `deleteFile` (remove + revoke) leaves the id
unfindable and appends the entry's object URL exactly once to the release
log. -/
theorem C4_remove_idempotent_get_none_release
    (id : String) (files : List CloudFile) (cf : CloudFile) (s : AppState) :
    FileContext.removeFile id (FileContext.removeFile id files)
      = FileContext.removeFile id files
    ∧ FileContext.getFile id (FileContext.removeFile id files) = none
    ∧ ((∀ f ∈ files, ¬ f.id = id) → FileContext.removeFile id files = files)
    ∧ FileContext.getFile cf.id (FilesPage.deleteFile cf s).files = none
    ∧ (FilesPage.deleteFile cf s).released.count cf.url
        = s.released.count cf.url + 1 := by
  refine ⟨?_, getFile_removeFile id files, ?_, ?_, ?_⟩
  · simp [FileContext.removeFile, List.filter_filter]
  · intro h
    rw [FileContext.removeFile, List.filter_eq_self]
    intro f hf
    simpa using h f hf
  · exact getFile_removeFile cf.id s.files
  · simp [FilesPage.deleteFile]

/-- C4 witness: the no-op branch at a concrete absent id, via the main
theorem. -/
theorem C4_witness :
    (∀ f ∈ [cfA], ¬ f.id = "zz") ∧ FileContext.removeFile "zz" [cfA] = [cfA] :=
  ⟨by decide,
    (C4_remove_idempotent_get_none_release "zz" [cfA] cfA initState).2.2.1 (by decide)⟩

/-- C5 counterexample: a candidate of an unsupported type whose size
strictly exceeds the 50 MB limit is rejected with `UnsupportedType`, not
`TooLarge` — the type check runs first, so `TooLarge` is not independent
of type support and does not occur exactly when the size exceeds the
limit. -/
theorem C5_counterexample :
    sizeLimit < bigzip.size
    ∧ classify bigzip = .rejected .UnsupportedType
    ∧ Outcome.rejected RejectReason.UnsupportedType
        ≠ Outcome.rejected RejectReason.TooLarge := by
  decide

/-- C5 amended: rejection with `TooLarge` occurs exactly when the type is
supported and the declared size strictly exceeds the 50 MB limit (so
zero-byte and exactly-at-limit type-valid candidates are accepted); for an
unsupported type the rejection is `UnsupportedType` regardless of size. -/
theorem C5_toolarge_requires_supported_type (f : MFile) :
    (classify f = .rejected .TooLarge
      ↔ (getFileType f).isSome = true ∧ sizeLimit < f.size)
    ∧ (∀ t, classify f = .accepted t
        ↔ getFileType f = some t ∧ f.size ≤ sizeLimit) := by
  refine ⟨?_, fun t => classify_accepted_iff f t⟩
  cases hft : getFileType f with
  | none => simp [classify_eq_of_none hft, hft]
  | some t =>
      rw [classify_eq_of_some hft]
      by_cases hs : sizeLimit < f.size
      · rw [if_pos hs]
        simp [hft, hs]
      · rw [if_neg hs]
        constructor
        · intro h
          exact absurd h (by simp)
        · rintro ⟨_, h2⟩
          omega

/-- C8 counterexample: the declared type `"video"` has the (string) prefix
`"video"` of the claim, yet `classify` rejects it with `UnsupportedType`
(the code requires the prefix `"video/"`); moreover an oversized `video/`
candidate is rejected `TooLarge`, not accepted — so the category mapping
is not the single outcome the claim states. -/
theorem C8_counterexample :
    List.isPrefixOf "video".toList "video".toList = true
    ∧ classify ⟨"v", "video", 10⟩ = .rejected .UnsupportedType
    ∧ strStartsWith "video/mp4" "video/" = true
    ∧ classify ⟨"b.mp4", "video/mp4", 60 * 1024 * 1024⟩ = .rejected .TooLarge := by
  decide

/-- C8 amended: `classify` is a total deterministic function of the
declared type and size alone; within the size limit it accepts video for a
type starting with `"video/"`, audio for `"audio/"`, pdf (the document
category) for exactly `"application/pdf"`, and rejects anything else with
`UnsupportedType`. -/
theorem C8_classify_total_cases (f : MFile) :
    (classify f = .accepted .video
      ↔ strStartsWith f.ftype "video/" = true ∧ f.size ≤ sizeLimit)
    ∧ (classify f = .accepted .audio
      ↔ strStartsWith f.ftype "video/" = false
        ∧ strStartsWith f.ftype "audio/" = true ∧ f.size ≤ sizeLimit)
    ∧ (classify f = .accepted .pdf
      ↔ strStartsWith f.ftype "video/" = false
        ∧ strStartsWith f.ftype "audio/" = false
        ∧ f.ftype = "application/pdf" ∧ f.size ≤ sizeLimit)
    ∧ (classify f = .rejected .UnsupportedType ↔ getFileType f = none)
    ∧ (getFileType f = none
      ↔ strStartsWith f.ftype "video/" = false
        ∧ strStartsWith f.ftype "audio/" = false
        ∧ ¬ f.ftype = "application/pdf") := by
  refine ⟨?_, ?_, ?_, classify_unsupported_iff f, getFileType_eq_none_iff f⟩
  · rw [classify_accepted_iff, getFileType_video]
  · rw [classify_accepted_iff, getFileType_audio, and_assoc]
  · rw [classify_accepted_iff, getFileType_pdf, and_assoc, and_assoc]

/-- C9: with the `all` chip and empty text the query returns the whole
catalog; membership in a query result means membership in the catalog,
case-insensitive substring match of the text against the name (empty text
matches everything), and category match unless the chip is `all`; and the
combined filter equals the two single filters applied sequentially in
either order. -/
theorem C9_query_filter_properties (files : List CloudFile) (term : String)
    (ft : FilterType) :
    filteredFiles "" .all files = files
    ∧ (∀ f, f ∈ filteredFiles term ft files
        ↔ f ∈ files ∧ jsToLower term <:+: jsToLower f.name
            ∧ (ft = .all ∨ f.ctype.toFilter = ft))
    ∧ filteredFiles "" ft files = files.filter (matchesFilter ft)
    ∧ filteredFiles term ft files
        = (files.filter (matchesSearch term)).filter (matchesFilter ft)
    ∧ filteredFiles term ft files
        = (files.filter (matchesFilter ft)).filter (matchesSearch term) := by
  refine ⟨?_, ?_, ?_, ?_, ?_⟩
  · rw [filteredFiles, List.filter_eq_self]
    intro f _
    simp [matchesSearch_empty, matchesFilter_all]
  · intro f
    simp only [filteredFiles, List.mem_filter, Bool.and_eq_true, matchesSearch,
      matchesFilter, jsIncludes, Bool.or_eq_true, beq_iff_eq,
      decide_eq_true_iff, and_assoc]
  · rw [filteredFiles]
    apply List.filter_congr
    intro f _
    simp [matchesSearch_empty]
  · rw [filteredFiles, List.filter_filter]
    apply List.filter_congr
    intro f _
    exact Bool.and_comm _ _
  · rw [filteredFiles, List.filter_filter]

/-- C10: `addFile` appends at the end, leaving the previous entries in
place and in order; `removeFile` yields a sublist (relative order and
contents of survivors preserved) containing exactly the entries whose id
differs from the argument. -/
theorem C10_add_remove_frame (files : List CloudFile) (cf : CloudFile)
    (id : String) :
    (FileContext.addFile cf files).length = files.length + 1
    ∧ (FileContext.addFile cf files).take files.length = files
    ∧ (FileContext.addFile cf files).getLast? = some cf
    ∧ List.Sublist (FileContext.removeFile id files) files
    ∧ (∀ f, f ∈ FileContext.removeFile id files ↔ f ∈ files ∧ ¬ f.id = id) := by
  refine ⟨?_, ?_, ?_, ?_, ?_⟩
  · simp [FileContext.addFile]
  · exact List.take_left files [cf]
  · exact List.getLast?_concat files
  · exact List.filter_sublist files
  · intro f
    simp [FileContext.removeFile, List.mem_filter]

/-! Lemmas about one interval firing (`tickStep` / `tick`). -/

/-- An entry with another id is untouched by the firing. -/
theorem tickStep_noop {inc : ℚ} {id : String} {uf : UploadingFile}
    (hid : ¬ uf.id = id) : tickStep inc id uf = (uf, none, false) := by
  unfold tickStep
  rw [if_neg hid]

/-- A matching, recognized entry whose progress would reach 100 completes:
progress clamped to exactly 100, status completed, a `CloudFile` with a
materialized object URL emitted, interval cleared. -/
theorem tickStep_completes {inc : ℚ} {id : String} {uf : UploadingFile}
    {t : FileCategory} (hid : uf.id = id) (hge : 100 ≤ uf.progress + inc)
    (hft : getFileType uf.file = some t) :
    tickStep inc id uf
      = ({ uf with progress := 100, status := .completed },
          some (mkCloudFile uf t), true) := by
  unfold tickStep
  rw [if_pos hid, if_pos (le_min hge le_rfl), hft]

/-- A matching entry short of 100 only advances its progress. -/
theorem tickStep_advance {inc : ℚ} {id : String} {uf : UploadingFile}
    (hid : uf.id = id) (hlt : ¬ 100 ≤ min (uf.progress + inc) 100) :
    tickStep inc id uf
      = ({ uf with progress := min (uf.progress + inc) 100 }, none, false) := by
  unfold tickStep
  rw [if_pos hid, if_neg hlt]

/-- A firing never changes an entry's id. -/
theorem tickStep_fst_id (inc : ℚ) (id : String) (uf : UploadingFile) :
    ((tickStep inc id uf).1).id = uf.id := by
  unfold tickStep
  split
  · split
    · split <;> rfl
    · rfl
  · rfl

/-- A firing with a non-negative increment never decreases progress (for
an entry at or below 100). -/
theorem tickStep_progress_mono (inc : ℚ) (id : String) (uf : UploadingFile)
    (hinc : 0 ≤ inc) (h100 : uf.progress ≤ 100) :
    uf.progress ≤ ((tickStep inc id uf).1).progress := by
  unfold tickStep
  split
  · split
    · split <;> exact h100
    · exact le_min (le_add_of_nonneg_right hinc) h100
  · exact le_refl _

/-- A firing keeps progress within `[0, 100]`. -/
theorem tickStep_progress_range (inc : ℚ) (id : String) (uf : UploadingFile)
    (hinc : 0 ≤ inc) (h0 : 0 ≤ uf.progress) (h100 : uf.progress ≤ 100) :
    0 ≤ ((tickStep inc id uf).1).progress
    ∧ ((tickStep inc id uf).1).progress ≤ 100 := by
  unfold tickStep
  split
  · split
    · split <;> exact ⟨by norm_num, le_refl _⟩
    · exact ⟨le_min (add_nonneg h0 hinc) (by norm_num), min_le_right _ _⟩
  · exact ⟨h0, h100⟩

/-- A firing never produces the error status (no code path assigns it). -/
theorem tickStep_status_ne_error (inc : ℚ) (id : String) (uf : UploadingFile)
    (h : ¬ uf.status = .error) : ¬ ((tickStep inc id uf).1).status = .error := by
  unfold tickStep
  split
  · split
    · split <;> simp
    · exact h
  · exact h

/-- A `CloudFile` is emitted only by the completion branch: the entry
matches the interval, this tick takes its progress to (at least, hence
clamped exactly to) 100, the entry ends completed, and the emitted file is
built from it with a materialized object URL. -/
theorem tickStep_snd_eq_some {inc : ℚ} {id : String} {uf : UploadingFile}
    {cf : CloudFile} (h : (tickStep inc id uf).2.1 = some cf) :
    uf.id = id ∧ 100 ≤ uf.progress + inc
    ∧ (tickStep inc id uf).1 = { uf with progress := 100, status := .completed }
    ∧ ∃ t, getFileType uf.file = some t ∧ cf = mkCloudFile uf t := by
  by_cases hid : uf.id = id
  · by_cases hge : 100 ≤ min (uf.progress + inc) 100
    · cases hft : getFileType uf.file with
      | none =>
          have hc : tickStep inc id uf
              = ({ uf with progress := 100, status := .completed }, none, true) := by
            unfold tickStep
            rw [if_pos hid, if_pos hge, hft]
          rw [hc] at h
          exact absurd h (by simp)
      | some t =>
          have hge' : 100 ≤ uf.progress + inc := (le_min_iff.mp hge).1
          have hc := tickStep_completes hid hge' hft
          rw [hc] at h
          exact ⟨hid, hge', by rw [hc], t, rfl, (Option.some.inj h).symm⟩
    · rw [tickStep_advance hid hge] at h
      exact absurd h (by simp)
  · rw [tickStep_noop hid] at h
    exact absurd h (by simp)

/-- The interval is cleared only by the completion branch. -/
theorem tickStep_clears {inc : ℚ} {id : String} {uf : UploadingFile}
    (h : (tickStep inc id uf).2.2 = true) :
    uf.id = id ∧ 100 ≤ uf.progress + inc
    ∧ (tickStep inc id uf).1
        = { uf with progress := 100, status := .completed } := by
  by_cases hid : uf.id = id
  · by_cases hge : 100 ≤ min (uf.progress + inc) 100
    · refine ⟨hid, (le_min_iff.mp hge).1, ?_⟩
      cases hft : getFileType uf.file with
      | none =>
          unfold tickStep
          rw [if_pos hid, if_pos hge, hft]
      | some t =>
          rw [tickStep_completes hid (le_min_iff.mp hge).1 hft]
    · rw [tickStep_advance hid hge] at h
      exact absurd h (by simp)
  · rw [tickStep_noop hid] at h
    exact absurd h (by simp)

/-- A tick whose interval is not registered does nothing. -/
theorem tick_not_mem {inc : ℚ} {id : String} {s : AppState}
    (h : ¬ id ∈ s.timers) : tick inc id s = s := by
  unfold tick
  rw [if_neg h]

/-- The staging list after a registered tick. -/
theorem tick_uploadingFiles_of_mem {inc : ℚ} {id : String} {s : AppState}
    (h : id ∈ s.timers) :
    (tick inc id s).uploadingFiles
      = s.uploadingFiles.map (fun uf => (tickStep inc id uf).1) := by
  unfold tick
  rw [if_pos h]

/-- The catalog after a registered tick: the previous entries followed by
whatever the firing completed. -/
theorem tick_files_of_mem {inc : ℚ} {id : String} {s : AppState}
    (h : id ∈ s.timers) :
    (tick inc id s).files
      = s.files ++ s.uploadingFiles.filterMap (fun uf => (tickStep inc id uf).2.1) := by
  unfold tick
  rw [if_pos h]

/-- The registered intervals after a registered tick. -/
theorem tick_timers_of_mem {inc : ℚ} {id : String} {s : AppState}
    (h : id ∈ s.timers) :
    (tick inc id s).timers
      = if s.uploadingFiles.any (fun uf => (tickStep inc id uf).2.2) then
          s.timers.erase id
        else s.timers := by
  unfold tick
  rw [if_pos h]

/-- The staging list produced by `handleFiles`. -/
theorem handleFiles_uploadingFiles (idGen : ℕ → String) (cs : List MFile)
    (s : AppState) :
    (handleFiles idGen cs s).uploadingFiles
      = s.uploadingFiles ++ assignIds idGen 0 (cs.filter isAccepted) := rfl

/-- Folding `simulateUpload` registers one interval per entry, in
order. -/
theorem foldl_simulateUpload :
    ∀ (l : List UploadingFile) (init : List String),
      l.foldl simulateUpload init = init ++ l.map (fun uf => uf.id) := by
  intro l
  induction l with
  | nil => intro init; simp
  | cons uf l ih =>
      intro init
      rw [List.foldl_cons, ih, List.map_cons]
      show (init ++ [uf.id]) ++ _ = _
      rw [List.append_assoc]
      rfl

/-- The registered intervals after `handleFiles`. -/
theorem handleFiles_timers (idGen : ℕ → String) (cs : List MFile)
    (s : AppState) :
    (handleFiles idGen cs s).timers
      = s.timers
        ++ (assignIds idGen 0 (cs.filter isAccepted)).map (fun uf => uf.id) := by
  show List.foldl simulateUpload s.timers _ = _
  rw [foldl_simulateUpload]

/-- The ids assigned by `assignIds` are the successive generator draws. -/
theorem assignIds_map_id (idGen : ℕ → String) :
    ∀ (fs : List MFile) (k : ℕ),
      (assignIds idGen k fs).map (fun uf => uf.id)
        = (List.range fs.length).map (fun i => idGen (k + i)) := by
  intro fs
  induction fs with
  | nil => intro k; rfl
  | cons f fs ih =>
      intro k
      show idGen k :: (assignIds idGen (k + 1) fs).map (fun uf => uf.id) = _
      rw [ih (k + 1), List.length_cons, List.range_succ_eq_map, List.map_cons,
        List.map_map]
      congr 1
      apply List.map_congr_left
      intro i _
      show idGen (k + 1 + i) = idGen (k + (i + 1))
      congr 1
      omega

/-! Fixtures for the pipeline claims. -/

/-- A degenerate id generator whose draws always collide. -/
def genA : ℕ → String := fun _ => "a"

/-- An id generator with distinct first two draws. -/
def genAB : ℕ → String := fun n => if n = 0 then "a" else "b"

/-- The state after staging one valid video file under id `"a"`. -/
def stagedA : AppState := handleFiles genA [vid] initState

/-- A state with one staging entry at progress 90 and its interval
registered. -/
def s90 : AppState :=
  { uploadingFiles := [⟨vid, 90, .uploading, "a"⟩]
    files := []
    timers := ["a"]
    released := [] }

/-- C1: over one interval firing with a non-negative increment, every
staging entry's progress is non-decreasing and stays in `[0, 100]`; any
entry newly appearing in the catalog comes from a staging entry whose
progress this very tick reached and was clamped to exactly 100 (ending
completed, with a materialized object URL in the constructed `CloudFile`);
conversely such an entry is inserted; and no staging entry is ever in the
error (`Failed`) state after a tick if none was before — in particular no
`Failed` entry is ever inserted, since every inserted entry's transition
is to completed. -/
theorem C1_progress_monotone_catalog_at_100
    (inc : ℚ) (id : String) (s : AppState)
    (hinc : 0 ≤ inc)
    (hrange : ∀ uf ∈ s.uploadingFiles, 0 ≤ uf.progress ∧ uf.progress ≤ 100)
    (hnoerr : ∀ uf ∈ s.uploadingFiles, ¬ uf.status = .error) :
    List.Forall₂
      (fun a b : UploadingFile =>
        a.progress ≤ b.progress ∧ 0 ≤ b.progress ∧ b.progress ≤ 100)
      s.uploadingFiles (tick inc id s).uploadingFiles
    ∧ (∀ cf ∈ (tick inc id s).files, ¬ cf ∈ s.files →
        ∃ uf ∈ s.uploadingFiles, uf.id = id ∧ 100 ≤ uf.progress + inc
          ∧ (tickStep inc id uf).1
              = { uf with progress := 100, status := .completed }
          ∧ ∃ t, getFileType uf.file = some t ∧ cf = mkCloudFile uf t)
    ∧ (∀ uf ∈ s.uploadingFiles, uf.id = id → id ∈ s.timers →
        100 ≤ uf.progress + inc →
        ∀ t, getFileType uf.file = some t
          → mkCloudFile uf t ∈ (tick inc id s).files)
    ∧ (∀ uf ∈ (tick inc id s).uploadingFiles, ¬ uf.status = .error) := by
  by_cases hmem : id ∈ s.timers
  case neg =>
    rw [tick_not_mem hmem]
    refine ⟨?_, ?_, ?_, hnoerr⟩
    · rw [List.forall₂_same]
      intro uf hm
      exact ⟨le_refl _, (hrange uf hm).1, (hrange uf hm).2⟩
    · intro cf hcf hncf
      exact absurd hcf hncf
    · intro uf hm hid htm
      exact absurd htm hmem
  case pos =>
    refine ⟨?_, ?_, ?_, ?_⟩
    · rw [tick_uploadingFiles_of_mem hmem, List.forall₂_map_right_iff,
        List.forall₂_same]
      intro uf hm
      exact ⟨tickStep_progress_mono inc id uf hinc (hrange uf hm).2,
        tickStep_progress_range inc id uf hinc (hrange uf hm).1 (hrange uf hm).2⟩
    · intro cf hcf hncf
      rw [tick_files_of_mem hmem] at hcf
      rcases List.mem_append.mp hcf with h | h
      · exact absurd h hncf
      · obtain ⟨uf, hm, hsome⟩ := List.mem_filterMap.mp h
        obtain ⟨hid, hge, hfst, t, hft, hcfeq⟩ := tickStep_snd_eq_some hsome
        exact ⟨uf, hm, hid, hge, hfst, t, hft, hcfeq⟩
    · intro uf hm hid htm hge t hft
      rw [tick_files_of_mem hmem]
      apply List.mem_append.mpr
      right
      apply List.mem_filterMap.mpr
      refine ⟨uf, hm, ?_⟩
      rw [tickStep_completes hid hge hft]
    · intro uf' hm'
      rw [tick_uploadingFiles_of_mem hmem] at hm'
      obtain ⟨uf, hm, rfl⟩ := List.mem_map.mp hm'
      exact tickStep_status_ne_error inc id uf (hnoerr uf hm)

/-- C1 witness: the theorem at the concrete one-entry staged state. -/
theorem C1_witness :
    (0 : ℚ) ≤ 7
    ∧ (∀ uf ∈ stagedA.uploadingFiles, 0 ≤ uf.progress ∧ uf.progress ≤ 100)
    ∧ (∀ uf ∈ stagedA.uploadingFiles, ¬ uf.status = .error)
    ∧ (∀ uf ∈ (tick 7 "a" stagedA).uploadingFiles, ¬ uf.status = .error) :=
  ⟨by norm_num, by decide, by decide,
    (C1_progress_monotone_catalog_at_100 7 "a" stagedA (by norm_num) (by decide)
      (by decide)).2.2.2⟩

/-- C2 (evidence of the code bug at the failing input): after staging one
valid file under id `"a"` and cancelling it before any progress,
the staging entry is gone and no catalog entry for it ever appears, but
the entry's interval is NOT torn down: it stays registered and a later
firing still executes (and still leaves the interval registered), contrary
to the required teardown — `removeFile` never calls `clearInterval`. -/
theorem C2_cancel_leaves_timer_registered :
    (UploadPage.removeFile "a" stagedA).uploadingFiles = []
    ∧ "a" ∈ (UploadPage.removeFile "a" stagedA).timers
    ∧ (tick 7 "a" (UploadPage.removeFile "a" stagedA)).files = []
    ∧ (tick 7 "a" (UploadPage.removeFile "a" stagedA)).timers = ["a"] := by
  decide

/-- C6 counterexample: a tick that takes the single staging entry to 100
leaves it in the pipeline-visible staging list (marked completed) instead
of removing it immediately upon the terminal transition, as the claim
states. -/
theorem C6_counterexample :
    (tick 10 "a" s90).uploadingFiles = [⟨vid, 100, .completed, "a"⟩]
    ∧ ¬ (tick 10 "a" s90).uploadingFiles = [] := by
  have hmem : "a" ∈ s90.timers := by decide
  have hc : (tickStep 10 "a" (⟨vid, 90, .uploading, "a"⟩ : UploadingFile)).1
      = (⟨vid, 100, .completed, "a"⟩ : UploadingFile) := by
    rw [@tickStep_completes 10 "a" ⟨vid, 90, .uploading, "a"⟩ .video rfl
      (by norm_num) (by decide)]
  have h1 : (tick 10 "a" s90).uploadingFiles = [⟨vid, 100, .completed, "a"⟩] := by
    rw [tick_uploadingFiles_of_mem hmem]
    show List.map (fun uf => (tickStep 10 "a" uf).1)
        [⟨vid, 90, .uploading, "a"⟩] = _
    rw [List.map_cons, List.map_nil, hc]
  exact ⟨h1, by rw [h1]; simp⟩

/-- C6 amended: when a registered tick completes some entry, the interval
is indeed cleared, so no further tick fires for that id (the completed
state is terminal for the simulation); but the completed entry remains in
the pipeline-visible staging list (status completed) rather than being
discarded on the spot — it stays until the user explicitly removes it.
The `Failed`/error status is never produced at all. -/
theorem C6_terminal_entry_stays_listed
    (inc inc' : ℚ) (id : String) (s : AppState)
    (hmem : id ∈ s.timers) (hnd : s.timers.Nodup)
    (hclear : s.uploadingFiles.any (fun uf => (tickStep inc id uf).2.2) = true) :
    ¬ id ∈ (tick inc id s).timers
    ∧ tick inc' id (tick inc id s) = tick inc id s
    ∧ ∃ uf ∈ s.uploadingFiles, uf.id = id ∧ 100 ≤ uf.progress + inc
        ∧ { uf with progress := 100, status := .completed }
            ∈ (tick inc id s).uploadingFiles := by
  have ht : (tick inc id s).timers = s.timers.erase id := by
    rw [tick_timers_of_mem hmem, if_pos hclear]
  have hnot : ¬ id ∈ (tick inc id s).timers := by
    rw [ht]
    exact hnd.not_mem_erase
  refine ⟨hnot, tick_not_mem hnot, ?_⟩
  obtain ⟨uf, hm, hb⟩ := List.any_eq_true.mp hclear
  obtain ⟨hid, hge, hfst⟩ := tickStep_clears hb
  refine ⟨uf, hm, hid, hge, ?_⟩
  rw [tick_uploadingFiles_of_mem hmem, ← hfst]
  exact List.mem_map_of_mem _ hm

/-- C6 witness: the amended statement at the concrete progress-90 state. -/
theorem C6_witness :
    ("a" ∈ s90.timers ∧ s90.timers.Nodup
      ∧ s90.uploadingFiles.any (fun uf => (tickStep 10 "a" uf).2.2) = true)
    ∧ ¬ "a" ∈ (tick 10 "a" s90).timers := by
  have hany : s90.uploadingFiles.any (fun uf => (tickStep 10 "a" uf).2.2) = true := by
    apply List.any_eq_true.mpr
    refine ⟨⟨vid, 90, .uploading, "a"⟩, List.mem_cons_self _ _, ?_⟩
    rw [@tickStep_completes 10 "a" ⟨vid, 90, .uploading, "a"⟩ .video rfl
      (by norm_num) (by decide)]
  exact ⟨⟨by decide, by decide, hany⟩,
    (C6_terminal_entry_stays_listed 10 7 "a" s90 (by decide) (by decide) hany).1⟩

/-- C7 counterexample: the id generator is `Math.random`-based and the
code never checks uniqueness — with colliding draws, one batch creates two
distinct staging entries carrying the same id `"a"`. -/
theorem C7_counterexample :
    (handleFiles genA [vid, aud] initState).uploadingFiles
      = [⟨vid, 0, .uploading, "a"⟩, ⟨aud, 0, .uploading, "a"⟩]
    ∧ ¬ ((⟨vid, 0, .uploading, "a"⟩ : UploadingFile)
          = ⟨aud, 0, .uploading, "a"⟩) := by
  decide

/-- C7 amended: each staging entry's id is exactly one generator draw
(assigned at creation), ticks never change any entry's id (immutability),
and the ids are pairwise distinct provided the generator draws are
distinct from each other and from the pre-existing ids — the code itself
enforces no uniqueness. -/
theorem C7_ids_are_generator_draws
    (idGen : ℕ → String) (cs : List MFile) (s : AppState) (inc : ℚ)
    (id : String) :
    (handleFiles idGen cs s).uploadingFiles.map (fun uf => uf.id)
      = s.uploadingFiles.map (fun uf => uf.id)
        ++ (List.range (cs.filter isAccepted).length).map idGen
    ∧ (tick inc id s).uploadingFiles.map (fun uf => uf.id)
        = s.uploadingFiles.map (fun uf => uf.id)
    ∧ ((s.uploadingFiles.map (fun uf => uf.id)
          ++ (List.range (cs.filter isAccepted).length).map idGen).Nodup →
        ((handleFiles idGen cs s).uploadingFiles.map (fun uf => uf.id)).Nodup) := by
  have h1 : (handleFiles idGen cs s).uploadingFiles.map (fun uf => uf.id)
      = s.uploadingFiles.map (fun uf => uf.id)
        ++ (List.range (cs.filter isAccepted).length).map idGen := by
    rw [handleFiles_uploadingFiles, List.map_append, assignIds_map_id]
    congr 1
    apply List.map_congr_left
    intro i _
    show idGen (0 + i) = idGen i
    congr 1
    omega
  refine ⟨h1, ?_, ?_⟩
  · by_cases hmem : id ∈ s.timers
    · rw [tick_uploadingFiles_of_mem hmem, List.map_map]
      apply List.map_congr_left
      intro uf _
      exact tickStep_fst_id inc id uf
    · rw [tick_not_mem hmem]
  · intro hnd
    rw [h1]
    exact hnd

/-- C7 witness: with distinct generator draws the resulting staging ids
are distinct. -/
theorem C7_witness :
    (initState.uploadingFiles.map (fun uf => uf.id)
        ++ (List.range ([vid, aud].filter isAccepted).length).map genAB).Nodup
    ∧ ((handleFiles genAB [vid, aud] initState).uploadingFiles.map
        (fun uf => uf.id)).Nodup := by
  have hnd : (initState.uploadingFiles.map (fun uf => uf.id)
      ++ (List.range ([vid, aud].filter isAccepted).length).map genAB).Nodup := by
    decide
  exact ⟨hnd,
    (C7_ids_are_generator_draws genAB [vid, aud] initState 0 "x").2.2 hnd⟩

end CloudPbl
